import Mathlib

/-!
Verification of the cothority skipchain service (package skipchain,
src/skipchain/skipchain.go) against its natural-language specification.

The embedding is a shallow one: the Go service code is translated into
executable Lean definitions.  Go machine integers that are provably
non-negative on all paths the claims touch (block indices, heights) are
modelled as Nat; the client-controlled authentication level, which the code
compares against negative values, is modelled as Int.  Byte strings
(SkipBlockID, signatures, payloads) are modelled as List Nat.  Network and
cryptographic effects (BFT signing rounds, Schnorr verification, the random
back-link of a genesis block) are parameters gathered in an Oracle record,
so every theorem quantifies over their outcomes.  Go loops that walk the
block store are given explicit fuel bounded by the store size; fuel
exhaustion models the non-termination a cyclic store would cause in Go.

The file skipchain/struct.go of the repository (SkipBlock helper methods
and the SkipBlockMap store) is not part of the provided sources; the few
helpers taken from it (content hash, SkipChainID, the hash-keyed store) are
modelled from the spec and marked as such in their doc comments.
-/

/-- A skipblock identifier: the 32-byte content hash of a block, modelled as
a byte list.  The empty list models the nil/empty id. -/
abbrev SkipBlockID := List Nat

/-- A forward link: target hash plus the BFT collective signature. -/
structure BlockLink where
  Hash : SkipBlockID
  Signature : List Nat
deriving DecidableEq

/-- One skipblock.  In Go the immutable part is the embedded SkipBlockFix
(covered by the content hash) and the mutable part is Hash, ForwardLink and
ChildSL; here the structure is flattened and fixOf projects the immutable
part. Roster is the ordered list of server identities (element 0 is the
leader); identities and their public keys are conflated into one Nat. -/
structure SkipBlock where
  Index : Nat
  Height : Nat
  MaximumHeight : Nat
  BaseHeight : Nat
  BackLinkIDs : List SkipBlockID
  VerifierIDs : List Nat
  ParentBlockID : SkipBlockID
  GenesisID : SkipBlockID
  Data : List Nat
  Roster : List Nat
  Hash : SkipBlockID
  ForwardLink : List BlockLink
  ChildSL : List SkipBlockID
deriving DecidableEq

/-- The immutable part of a block, the input of the content hash. -/
structure SkipBlockFix where
  Index : Nat
  Height : Nat
  MaximumHeight : Nat
  BaseHeight : Nat
  BackLinkIDs : List SkipBlockID
  VerifierIDs : List Nat
  ParentBlockID : SkipBlockID
  GenesisID : SkipBlockID
  Data : List Nat
  Roster : List Nat
deriving DecidableEq

/-- Project the immutable fields of a block (the part covered by the hash). -/
def fixOf (sb : SkipBlock) : SkipBlockFix :=
  { Index := sb.Index, Height := sb.Height, MaximumHeight := sb.MaximumHeight,
    BaseHeight := sb.BaseHeight, BackLinkIDs := sb.BackLinkIDs,
    VerifierIDs := sb.VerifierIDs, ParentBlockID := sb.ParentBlockID,
    GenesisID := sb.GenesisID, Data := sb.Data, Roster := sb.Roster }

/-- Modelled from the spec (struct.go is not in the provided sources):
SkipChainID is the GenesisID if set, else the block hash (a genesis block
is its own chain id). -/
def skipChainID (sb : SkipBlock) : SkipBlockID :=
  if sb.GenesisID.isEmpty then sb.Hash else sb.GenesisID

/-- Modelled from the spec: the block store is a mapping from hash to block;
it is embedded as a list of blocks looked up by their Hash field. -/
def getByID (sbm : List SkipBlock) (id : SkipBlockID) : Option SkipBlock :=
  sbm.find? (fun b => b.Hash == id)

/-- Modelled from the spec: Store(b) inserts-or-replaces by hash; when
replacing, ForwardLink and ChildSL are merged monotonically (never
shrinking). -/
def mergeBlock (old new : SkipBlock) : SkipBlock :=
  { new with
    ForwardLink :=
      if old.ForwardLink.length ≤ new.ForwardLink.length then new.ForwardLink
      else old.ForwardLink,
    ChildSL :=
      if old.ChildSL.length ≤ new.ChildSL.length then new.ChildSL
      else old.ChildSL }

/-- Modelled from the spec: insert-or-replace a block in the store, keyed by
its hash. -/
def storeBlock : List SkipBlock → SkipBlock → List SkipBlock
  | [], b => [b]
  | x :: rest, b =>
    if x.Hash == b.Hash then mergeBlock x b :: rest else x :: storeBlock rest b

/-- The height-computation loop of the append path of StoreSkipBlock
(skipchain.go lines 179-185):

  index := prop.Index
  for prop.Height = 1; index % prop.BaseHeight == 0; prop.Height++ {
    index /= prop.BaseHeight
    if prop.Height >= prop.MaximumHeight { break }
  }

The loop is embedded with explicit fuel; each iteration either breaks (once
the height reaches MaximumHeight) or increments the height, so fuel
MaximumHeight + 1 always suffices (proved below). -/
def heightLoopF (B M : Nat) : Nat → Nat → Nat → Option Nat
  | 0, _, _ => none
  | fuel + 1, index, h =>
    if index % B = 0 then
      if M ≤ h then some h
      else heightLoopF B M fuel (index / B) (h + 1)
    else some h

/-- The height assigned to a non-genesis block with the given BaseHeight,
MaximumHeight and Index (the loop starts at height 1). -/
def computeHeight (B M index : Nat) : Nat :=
  (heightLoopF B M (M + 1) index 1).getD 1

example : computeHeight 2 3 4 = 3 := by decide
example : computeHeight 2 2 4 = 2 := by decide
example : computeHeight 2 2 3 = 1 := by decide
example : computeHeight 1 1 7 = 1 := by decide
example : computeHeight 3 2 9 = 2 := by decide

deriving instance DecidableEq for Except

/-- The persistent and in-memory state of the skipchain service relevant to
the claims: the block store (Storage.Sbm), the followed latest blocks
(Storage.Follow), the followed chain ids (Storage.FollowIDs), the linked
client keys (Storage.Clients), the process-wide authentication level
(AuthSkipchain, an int the code compares against negatives), and the keys
of the in-flight append single-flight map (newBlocks). -/
structure ServiceState where
  Sbm : List SkipBlock
  Follow : List SkipBlock
  FollowIDs : List SkipBlockID
  Clients : List Nat
  AuthSkipchain : Int
  newBlocks : List SkipBlockID
deriving DecidableEq

/-- Outcomes of the external/cryptographic effects of one StoreSkipBlock
call: the content hash (struct.go updateHash/CalculateHash, modelled from
the spec as a function of the immutable part), the random genesis
back-link, Schnorr verification, the roster-extension acceptance replies,
the level-0 BFT round, the BFT co-signature bytes, forward-signature
verification, and the propagation round.  The per-height outcome of the
back-fill BFT rounds is a separate argument of the append path. -/
structure Oracle where
  hashFix : SkipBlockFix → SkipBlockID
  rnd : SkipBlockID
  verifySchnorr : Nat → List Nat → List Nat → Bool
  willAccept : Nat → SkipBlockID → Bool
  bftNewOk : Bool
  bftSig : List Nat
  vfs : SkipBlock → Bool
  propagateOk : Bool

/-- Error codes exposed to clients (spec section 6). -/
def ErrorBlockNotFound : Nat := 4100
/-- Error code for invalid block content. -/
def ErrorBlockContent : Nat := 4102
/-- Error code for a wrong parameter. -/
def ErrorParameterWrong : Nat := 4103
/-- Error code for a verification failure. -/
def ErrorVerification : Nat := 4104
/-- Error code for a colliding in-flight append. -/
def ErrorBlockInProgress : Nat := 4106

/-- The reply of a successful StoreSkipBlock call. -/
structure StoreReply where
  Previous : Option SkipBlock
  Latest : SkipBlock
deriving DecidableEq

/-- A StoreSkipBlock request. -/
structure StoreReq where
  LatestID : SkipBlockID
  NewBlock : SkipBlock
  Signature : Option (List Nat)

/-- Service.verifyBlock (skipchain.go lines 687-713): structural checks on
a block.  sb.Index < 0 is kept literally; over Nat it never fires, matching
the reachable Go states. -/
def verifyBlock (sb : SkipBlock) : Except String Unit :=
  if sb.MaximumHeight ≤ 0 then .error "Set a maximumHeight greater 0"
  else if sb.BaseHeight ≤ 0 then .error "Set a baseHeight greater 0"
  else if sb.MaximumHeight > sb.BaseHeight then
    .error "maximumHeight must be smaller or equal baseHeight"
  else if sb.Index < 0 then .error "Cannot have an index smaller 0"
  else if sb.BackLinkIDs.length ≤ 0 then .error "Need at least one backlinkID"
  else if sb.Height < 1 then .error "Minimum height is 1"
  else if sb.Height > sb.MaximumHeight then
    .error "Height must be lower or equal maximumHeight"
  else if sb.Roster.isEmpty then .error "Need a roster"
  else .ok ()

/-- Service.newBlockStart on the key list of the newBlocks map
(skipchain.go lines 839-850): refuse when the key is already in flight or
when any append at all is in flight, else record the key. -/
def nbStart (l : List SkipBlockID) (k : SkipBlockID) : Bool × List SkipBlockID :=
  if l.contains k then (false, l)
  else if 0 < l.length then (false, l)
  else (true, l ++ [k])

/-- Service.newBlockEnd on the key list (skipchain.go lines 852-860):
delete the key from the map. -/
def nbEndList (l : List SkipBlockID) (k : SkipBlockID) : List SkipBlockID :=
  l.filter (fun x => !(x == k))

/-- Service.newBlockStart lifted to the service state. -/
def newBlockStart (s : ServiceState) (sb : SkipBlock) : Bool × List SkipBlockID :=
  nbStart s.newBlocks sb.Hash

/-- Service.newBlockEnd lifted to the service state. -/
def nbEndState (s : ServiceState) (k : SkipBlockID) : ServiceState :=
  { s with newBlocks := nbEndList s.newBlocks k }

/-- The states the newBlocks key set can reach from the empty initial map
under any interleaving of the mutex-serialised newBlockStart/newBlockEnd
primitives. -/
inductive NBReachable : List SkipBlockID → Prop
  | init : NBReachable []
  | step_start (l : List SkipBlockID) (k : SkipBlockID) :
      NBReachable l → NBReachable (nbStart l k).2
  | step_end (l : List SkipBlockID) (k : SkipBlockID) :
      NBReachable l → NBReachable (nbEndList l k)

/-- Service.verifySigs (skipchain.go lines 455-467): with no registered
clients every signature verifies; otherwise some client key must verify. -/
def verifySigs (O : Oracle) (s : ServiceState) (msg sig : List Nat) : Bool :=
  if s.Clients.isEmpty then true
  else s.Clients.any (fun cl => O.verifySchnorr cl msg sig)

/-- Service.SettingAuthentication (skipchain.go lines 358-372): the
message signed is the single byte of the level (byte(int) truncates mod
256, matching Int.emod for the in-range levels); the level is stored only
after the signature check, the range check and the level-2 rejection. -/
def settingAuthentication (O : Oracle) (s : ServiceState) (level : Int)
    (sig : List Nat) : Except Nat Unit × ServiceState :=
  let msg : List Nat := [(level % 256).toNat]
  if ¬ (verifySigs O s msg sig = true) then (.error ErrorParameterWrong, s)
  else if level < 0 ∨ level > 2 then (.error ErrorParameterWrong, s)
  else if level = 2 then (.error ErrorParameterWrong, s)
  else (.ok (), { s with AuthSkipchain := level })

/-- Service.authenticate (skipchain.go lines 864-881): the signature must
verify under this node, a member of a followed latest block roster, or a
linked client key. -/
def authenticate (O : Oracle) (self : Nat) (s : ServiceState)
    (msg sig : List Nat) : Bool :=
  O.verifySchnorr self msg sig
  || s.Follow.any (fun sb => sb.Roster.any (fun si => O.verifySchnorr si msg sig))
  || s.Clients.any (fun cl => O.verifySchnorr cl msg sig)

/-- The case-1 roster scan of Service.blockIsFriendly (skipchain.go lines
903-915): a member different from self is accepted when it occurs in a
followed roster; self is accepted when the roster is a singleton or self
stands at index 0. -/
def friendlyScan (self : Nat) (follow : List SkipBlock) (len : Nat) :
    Nat → List Nat → Bool
  | _, [] => false
  | i, si :: rest =>
    if si ≠ self then
      if follow.any (fun fb => fb.Roster.contains si) then true
      else friendlyScan self follow len (i + 1) rest
    else if len = 1 ∨ i = 0 then true
    else friendlyScan self follow len (i + 1) rest

/-- Service.blockIsFriendly (skipchain.go lines 885-921). -/
def blockIsFriendly (self : Nat) (s : ServiceState) (sb : SkipBlock) : Bool :=
  if s.AuthSkipchain = 0 then true
  else if (getByID s.Sbm (skipChainID sb)).isSome then true
  else if s.FollowIDs.any (fun id => id == skipChainID sb) then true
  else if s.AuthSkipchain = 1 then
    friendlyScan self s.Follow sb.Roster.length 0 sb.Roster
  else true

/-- Service.addForwardLink (skipchain.go lines 719-753): refuse when the
source already has a forward link; run the level-0 BFT round; re-read the
stored source and refuse when a link appeared meanwhile; set the single
forward link on the stored source; verify the collective signature (the
mutation is kept even when this last check fails, as in Go).  Returns the
error outcome together with the store after the call. -/
def addForwardLink (O : Oracle) (sbm : List SkipBlock) (src dst : SkipBlock) :
    Except Nat Unit × List SkipBlock :=
  if 0 < src.ForwardLink.length then (.error 1, sbm)
  else if ¬ (O.bftNewOk = true) then (.error 2, sbm)
  else
    match getByID sbm src.Hash with
    | none => (.error 3, sbm)
    | some cur =>
      if 0 < cur.ForwardLink.length then (.error 4, sbm)
      else
        let srcNew := { src with ForwardLink := [⟨dst.Hash, O.bftSig⟩] }
        let sbmNew := storeBlock sbm srcNew
        if ¬ (O.vfs srcNew = true) then (.error 5, sbmNew)
        else (.ok (), sbmNew)

/-- Service.forwardSignature (skipchain.go lines 496-519) as invoked by the
back-fill loop: check the target height against the newest block, look up
the target, run the follow-block BFT round (outcome fsOk), and on success
append the forward link (target.AddForward, modelled from the spec as a
monotone append) to the stored target.  flHash is the hash carried by the
level-0 forward link of prev, i.e. the hash of the newest block. -/
def forwardSignature (O : Oracle) (fsOk : Bool) (sbm : List SkipBlock)
    (targetHeight : Nat) (newest : SkipBlock) (flHash : SkipBlockID) :
    Except Nat (List SkipBlock) :=
  if newest.BackLinkIDs.length ≤ targetHeight then .error 1
  else
    match getByID sbm (newest.BackLinkIDs.getD targetHeight []) with
    | none => .error 2
    | some target =>
      if ¬ (fsOk = true) then .error 3
      else .ok (storeBlock sbm
        { target with ForwardLink := target.ForwardLink ++ [⟨flHash, O.bftSig⟩] })

/-- The back-fill loop of StoreSkipBlock (skipchain.go lines 219-234) over
the back-links of heights 1 and above: a missing back-linked block is a
fatal error (first component true); a failed forwardSignature is only
logged and the loop continues; a successful one adds the back block to the
changed list.  Returns (fatal, store, changed additions). -/
def backfill (O : Oracle) (fs : Nat → Bool) (prop : SkipBlock)
    (flHash : SkipBlockID) :
    List SkipBlock → Nat → List SkipBlockID →
    Bool × List SkipBlock × List SkipBlock
  | sbm, _, [] => (false, sbm, [])
  | sbm, i, bl :: rest =>
    match getByID sbm bl with
    | none => (true, sbm, [])
    | some back =>
      match forwardSignature O (fs (i + 1)) sbm (i + 1) prop flHash with
      | .error _ => backfill O fs prop flHash sbm (i + 1) rest
      | .ok sbmNew =>
        let r := backfill O fs prop flHash sbmNew (i + 1) rest
        (r.1, r.2.1, back :: r.2.2)

/-- The inner while-loop of the back-link computation (skipchain.go lines
191-198): follow BackLinkIDs[0] until a block of height at least h+1 is
found.  Fuel bounds the walk by the store size; exhaustion (a cyclic
store, on which Go would not terminate) and a missing block both yield
none, which the caller maps to BlockNotFound. -/
def walkBack (sbm : List SkipBlock) : Nat → SkipBlock → Nat → Option SkipBlock
  | 0, _, _ => none
  | fuel + 1, pointer, h =>
    if pointer.Height < h + 1 then
      match getByID sbm (pointer.BackLinkIDs.getD 0 []) with
      | none => none
      | some p => walkBack sbm fuel p h
    else some pointer

/-- The back-link computation of the append path (skipchain.go lines
188-200): for each height h below the new height, walk back from prev to
the most recent block of height at least h+1 and record its hash. -/
def backLinksGo (sbm : List SkipBlock) (H : Nat) :
    Nat → SkipBlock → List SkipBlockID → Option (List SkipBlockID)
  | 0, _, acc => some acc.reverse
  | n + 1, pointer, acc =>
    match walkBack sbm (sbm.length + 1) pointer (H - (n + 1)) with
    | none => none
    | some p => backLinksGo sbm H n p (p.Hash :: acc)

/-- Compute the BackLinkIDs slice of length H starting the walk at prev. -/
def backLinks (sbm : List SkipBlock) (H : Nat) (prev : SkipBlock) :
    Option (List SkipBlockID) :=
  backLinksGo sbm H H prev []

/-- Dereference the changed-block pointers at propagation time: blocks that
live in the store are taken in their current (possibly mutated) version,
the not-yet-stored new block is taken as is. -/
def refreshChanged (sbm : List SkipBlock) (changed : List SkipBlock) :
    List SkipBlock :=
  changed.map (fun b => (getByID sbm b.Hash).getD b)

/-- The local delivery of Service.propagateSkipBlock (skipchain.go lines
658-676): for each propagated block verify the forward signatures (oracle
vfs) and the friendliness; on the first failure stop, otherwise store the
block. -/
def propagateLocal (O : Oracle) (self : Nat) (s : ServiceState) :
    List SkipBlock → List SkipBlock
  | [] => s.Sbm
  | b :: rest =>
    if O.vfs b = true then
      if blockIsFriendly self s b = true then
        propagateLocal O self { s with Sbm := storeBlock s.Sbm b } rest
      else s.Sbm
    else s.Sbm

/-- The common tail of StoreSkipBlock (skipchain.go lines 236-245):
propagate the changed blocks (failure aborts with ErrorVerification), save,
and reply with the previous and latest blocks; the deferred newBlockEnd
releases the in-flight key on every exit. -/
def finishCall (O : Oracle) (self : Nat) (s : ServiceState)
    (changed : List SkipBlock) (prevHash : Option SkipBlockID)
    (latest : SkipBlock) (endKey : SkipBlockID) :
    Except Nat StoreReply × ServiceState :=
  if O.propagateOk = true then
    let sbmNew := propagateLocal O self s (refreshChanged s.Sbm changed)
    (.ok { Previous := prevHash.bind (getByID sbmNew), Latest := latest },
      nbEndState { s with Sbm := sbmNew } endKey)
  else (.error ErrorVerification, nbEndState s endKey)

/-- The genesis branch of StoreSkipBlock (skipchain.go lines 120-151):
overwrite the client-supplied Index, Height, ForwardLink, BackLinkIDs and
GenesisID, recompute the hash, validate, take the single-flight lock, hook
the block into its parent when a parent is named, and finish. -/
def genesisPath (O : Oracle) (self : Nat) (s : ServiceState)
    (prop0 : SkipBlock) : Except Nat StoreReply × ServiceState :=
  let prop1 := { prop0 with
    Index := 0, Height := prop0.MaximumHeight,
    ForwardLink := [], BackLinkIDs := [O.rnd],
    GenesisID := ([] : SkipBlockID) }
  let prop := { prop1 with Hash := O.hashFix (fixOf prop1) }
  match verifyBlock prop with
  | .error _ => (.error ErrorParameterWrong, s)
  | .ok _ =>
    match nbStart s.newBlocks prop.Hash with
    | (false, _) => (.error ErrorBlockInProgress, s)
    | (true, nb1) =>
      let s1 := { s with newBlocks := nb1 }
      if ¬ prop.ParentBlockID.isEmpty then
        match getByID s1.Sbm prop.ParentBlockID with
        | none => (.error ErrorParameterWrong, nbEndState s1 prop.Hash)
        | some parent =>
          let parentNew := { parent with ChildSL := parent.ChildSL ++ [prop.Hash] }
          let s2 := { s1 with Sbm := storeBlock s1.Sbm parentNew }
          finishCall O self s2 [parentNew, prop] none prop prop.Hash
      else finishCall O self s1 [prop] none prop prop.Hash

/-- The roster-extension gate of the append path (skipchain.go lines
203-212): when the roster changed, every member absent from the previous
roster must accept the new genesis (sub-protocol outcome willAccept);
returns true when some new member refuses. -/
def rosterExtensionRefused (O : Oracle) (prev prop : SkipBlock) : Bool :=
  if prev.Roster ≠ prop.Roster then
    prop.Roster.any (fun si =>
      !(prev.Roster.contains si) && !(O.willAccept si (skipChainID prop)))
  else false

/-- The block-construction steps of the append branch (skipchain.go lines
173-201): inherit the chain parameters from prev, set the new index and
chain id, compute the height, compute the back-links (none when a block on
the walk is missing), and recompute the hash over the immutable part. -/
def buildProp (O : Oracle) (sbm : List SkipBlock) (prev prop0 : SkipBlock) :
    Option SkipBlock :=
  let prop1 := { prop0 with
    MaximumHeight := prev.MaximumHeight,
    BaseHeight := prev.BaseHeight,
    ParentBlockID := ([] : SkipBlockID),
    VerifierIDs := prev.VerifierIDs,
    Index := prev.Index + 1,
    GenesisID := skipChainID prev }
  let prop2 := { prop1 with
    Height := computeHeight prop1.BaseHeight prop1.MaximumHeight prop1.Index }
  match backLinks sbm prop2.Height prev with
  | none => none
  | some bls =>
    let prop3 := { prop2 with BackLinkIDs := bls }
    some { prop3 with Hash := O.hashFix (fixOf prop3) }

/-- The append branch of StoreSkipBlock (skipchain.go lines 152-235): look
up prev, check membership and that prev has no forward link yet, take the
single-flight lock, construct the new block (buildProp; a missing block on
the back-link walk aborts with BlockNotFound), run the roster-extension
gate, sign and attach the level-0 forward link, back-fill the higher
links, and finish. -/
def appendPath (O : Oracle) (fs : Nat → Bool) (self : Nat) (s : ServiceState)
    (latestID : SkipBlockID) (prop0 : SkipBlock) :
    Except Nat StoreReply × ServiceState :=
  match getByID s.Sbm latestID with
  | none => (.error ErrorBlockNotFound, s)
  | some prev =>
    if prev.Roster.contains self = false then (.error ErrorBlockContent, s)
    else if 0 < prev.ForwardLink.length then (.error ErrorBlockContent, s)
    else
      match nbStart s.newBlocks prev.Hash with
      | (false, _) => (.error ErrorBlockInProgress, s)
      | (true, nb1) =>
        let s1 := { s with newBlocks := nb1 }
        match buildProp O s1.Sbm prev prop0 with
        | none => (.error ErrorBlockNotFound, nbEndState s1 prev.Hash)
        | some prop =>
          if rosterExtensionRefused O prev prop = true then
            (.error ErrorBlockContent, nbEndState s1 prev.Hash)
          else
            match addForwardLink O s1.Sbm prev prop with
            | (.error _, sbm2) =>
              (.error ErrorBlockContent, nbEndState { s1 with Sbm := sbm2 } prev.Hash)
            | (.ok _, sbm2) =>
              let bf := backfill O fs prop prop.Hash sbm2 0 (prop.BackLinkIDs.drop 1)
              if bf.1 = true then
                (.error ErrorBlockContent, nbEndState { s1 with Sbm := bf.2.1 } prev.Hash)
              else
                finishCall O self { s1 with Sbm := bf.2.1 }
                  ([prev, prop] ++ bf.2.2) (some prev.Hash) prop prev.Hash

/-- The fields a successfully built append block: the chain parameters are
inherited from prev, ParentBlockID is cleared, index and chain id are set,
the height is the computed one, and the hash covers the immutable part. -/
theorem buildProp_fields (O : Oracle) (sbm : List SkipBlock)
    (prev prop0 prop : SkipBlock)
    (h : buildProp O sbm prev prop0 = some prop) :
    prop.MaximumHeight = prev.MaximumHeight
    ∧ prop.BaseHeight = prev.BaseHeight
    ∧ prop.VerifierIDs = prev.VerifierIDs
    ∧ prop.ParentBlockID = ([] : SkipBlockID)
    ∧ prop.Index = prev.Index + 1
    ∧ prop.GenesisID = skipChainID prev
    ∧ prop.Height
        = computeHeight prev.BaseHeight prev.MaximumHeight (prev.Index + 1)
    ∧ prop.Hash = O.hashFix (fixOf prop) := by
  simp only [buildProp] at h
  split at h
  · simp at h
  · cases h
    exact ⟨rfl, rfl, rfl, rfl, rfl, rfl, rfl, rfl⟩

/-- The authentication gate of StoreSkipBlock (skipchain.go lines 105-114):
a signature must be present and must authenticate the recomputed content
hash of the proposed block. -/
def authSigOk (O : Oracle) (self : Nat) (s : ServiceState) (req : StoreReq) :
    Bool :=
  match req.Signature with
  | none => false
  | some sig => authenticate O self s (O.hashFix (fixOf req.NewBlock)) sig

/-- Service.StoreSkipBlock (skipchain.go lines 99-246): leader gate,
authentication gate, then the genesis or the append branch depending on
whether LatestID is empty. -/
def storeSkipBlock (O : Oracle) (fs : Nat → Bool) (self : Nat)
    (s : ServiceState) (req : StoreReq) : Except Nat StoreReply × ServiceState :=
  let prop := req.NewBlock
  if prop.Roster.head? ≠ some self then (.error ErrorParameterWrong, s)
  else if 0 < s.AuthSkipchain ∧ ¬ (authSigOk O self s req = true) then
    (.error ErrorParameterWrong, s)
  else if req.LatestID.isEmpty then genesisPath O self s prop
  else appendPath O fs self s req.LatestID prop

/-- The outcome of GetSingleBlockByIndex: a found block, the BlockNotFound
error, the nil-pointer dereference the Go code performs when a forward-link
target is missing from the store, or fuel exhaustion (a cyclic forward-link
chain, on which Go would not terminate). -/
inductive ByIndexOutcome
  | found (sb : SkipBlock)
  | notFound
  | nilDeref
  | spin
deriving DecidableEq

/-- The walk of Service.GetSingleBlockByIndex (skipchain.go lines 313-318):
while the current block has a forward link, dereference the ForwardLink[0]
target; a missing target is dereferenced as a nil pointer before any check
can fire. -/
def byIndexLoop (sbm : List SkipBlock) (idx : Nat) :
    Nat → SkipBlock → ByIndexOutcome
  | 0, _ => .spin
  | fuel + 1, sb =>
    if 0 < sb.ForwardLink.length then
      match getByID sbm ((sb.ForwardLink.getD 0 ⟨[], []⟩).Hash) with
      | none => .nilDeref
      | some sbNext =>
        if sbNext.Index = idx then .found sbNext
        else byIndexLoop sbm idx fuel sbNext
    else .notFound

/-- Service.GetSingleBlockByIndex (skipchain.go lines 304-321). -/
def getSingleBlockByIndex (sbm : List SkipBlock) (genesis : SkipBlockID)
    (idx : Nat) : ByIndexOutcome :=
  match getByID sbm genesis with
  | none => .notFound
  | some sb =>
    if sb.Index = idx then .found sb
    else byIndexLoop sbm idx (sbm.length + 1) sb
/-- Byte-list encoder with length prefix. -/
def encList (l : List Nat) : List Nat := l.length :: l

/-- Encoder for a list of byte lists. -/
def encLL (l : List (List Nat)) : List Nat := l.length :: l.flatMap encList

/-- A concrete injective-enough content hash used by witnesses. -/
def hashFixModel (fix : SkipBlockFix) : SkipBlockID :=
  [fix.Index, fix.Height, fix.MaximumHeight, fix.BaseHeight]
  ++ encLL fix.BackLinkIDs ++ encList fix.VerifierIDs
  ++ encList fix.ParentBlockID ++ encList fix.GenesisID
  ++ encList fix.Data ++ encList fix.Roster

/-- An all-zero block, base of the concrete fixtures. -/
def blankBlock : SkipBlock :=
  { Index := 0, Height := 0, MaximumHeight := 0, BaseHeight := 0,
    BackLinkIDs := [], VerifierIDs := [], ParentBlockID := [], GenesisID := [],
    Data := [], Roster := [], Hash := [], ForwardLink := [], ChildSL := [] }

/-- A fully succeeding oracle over the concrete hash. -/
def oracleYes : Oracle :=
  { hashFix := hashFixModel, rnd := List.replicate 32 9,
    verifySchnorr := fun _ _ _ => true, willAccept := fun _ _ => true,
    bftNewOk := true, bftSig := [1], vfs := fun _ => true, propagateOk := true }

/-- Back-fill BFT rounds that all succeed. -/
def fsAll : Nat → Bool := fun _ => true

/-- The empty service state. -/
def emptyState : ServiceState :=
  { Sbm := [], Follow := [], FollowIDs := [], Clients := [], AuthSkipchain := 0,
    newBlocks := [] }

/-- Back-fill BFT rounds that all fail. -/
def fsNone : Nat → Bool := fun _ => false

/- ===== Height computation: supporting lemmas ===== -/

theorem hlf_ge (B M : Nat) :
    ∀ (f i h H : Nat), heightLoopF B M f i h = some H → h ≤ H := by
  intro f
  induction f with
  | zero => intro i h H hEq; simp [heightLoopF] at hEq
  | succ f ih =>
    intro i h H hEq
    simp only [heightLoopF] at hEq
    by_cases hmod : i % B = 0
    · rw [if_pos hmod] at hEq
      by_cases hM : M ≤ h
      · rw [if_pos hM] at hEq
        cases hEq
        exact Nat.le_refl h
      · rw [if_neg hM] at hEq
        exact Nat.le_trans (Nat.le_succ h) (ih _ _ _ hEq)
    · rw [if_neg hmod] at hEq
      cases hEq
      exact Nat.le_refl h

theorem hlf_le (B M : Nat) :
    ∀ (f i h H : Nat), h ≤ M → heightLoopF B M f i h = some H → H ≤ M := by
  intro f
  induction f with
  | zero => intro i h H _ hEq; simp [heightLoopF] at hEq
  | succ f ih =>
    intro i h H hhM hEq
    simp only [heightLoopF] at hEq
    by_cases hmod : i % B = 0
    · rw [if_pos hmod] at hEq
      by_cases hM : M ≤ h
      · cases if_pos hM ▸ hEq
        exact hhM
      · rw [if_neg hM] at hEq
        exact ih _ _ _ (by omega) hEq
    · rw [if_neg hmod] at hEq
      cases hEq
      exact hhM

theorem hlf_dvd (B M : Nat) :
    ∀ (f i h H : Nat), heightLoopF B M f i h = some H → B ^ (H - h) ∣ i := by
  intro f
  induction f with
  | zero => intro i h H hEq; simp [heightLoopF] at hEq
  | succ f ih =>
    intro i h H hEq
    simp only [heightLoopF] at hEq
    by_cases hmod : i % B = 0
    · rw [if_pos hmod] at hEq
      by_cases hM : M ≤ h
      · cases if_pos hM ▸ hEq
        simp
      · rw [if_neg hM] at hEq
        have hle : h + 1 ≤ H := hlf_ge B M f (i / B) (h + 1) H hEq
        have hdvd : B ^ (H - (h + 1)) ∣ i / B := ih _ _ _ hEq
        have hBi : B ∣ i := Nat.dvd_of_mod_eq_zero hmod
        have hiEq : i / B * B = i := Nat.div_mul_cancel hBi
        have hexp : H - h = H - (h + 1) + 1 := by omega
        rw [hexp, pow_succ]
        calc B ^ (H - (h + 1)) * B ∣ i / B * B :=
              Nat.mul_dvd_mul_right hdvd B
          _ = i := hiEq
    · rw [if_neg hmod] at hEq
      cases hEq
      simp

theorem hlf_max (B M : Nat) :
    ∀ (f i h H : Nat), heightLoopF B M f i h = some H →
      ∀ j, h ≤ j → j ≤ M → B ^ (j - h) ∣ i → j ≤ H := by
  intro f
  induction f with
  | zero => intro i h H hEq; simp [heightLoopF] at hEq
  | succ f ih =>
    intro i h H hEq j hhj hjM hdvd
    simp only [heightLoopF] at hEq
    by_cases hmod : i % B = 0
    · rw [if_pos hmod] at hEq
      by_cases hM : M ≤ h
      · cases if_pos hM ▸ hEq
        omega
      · rw [if_neg hM] at hEq
        rcases Nat.lt_or_ge h j with hlt | hge
        · have hBi : B ∣ i := Nat.dvd_of_mod_eq_zero hmod
          have hstep : B ^ (j - (h + 1)) ∣ i / B := by
            rw [Nat.dvd_div_iff_mul_dvd hBi]
            have : B * B ^ (j - (h + 1)) = B ^ (j - h) := by
              rw [← pow_succ']
              congr 1
              omega
            rw [this]
            exact hdvd
          exact ih _ _ _ hEq j (by omega) hjM hstep
        · have : h + 1 ≤ H := hlf_ge B M f (i / B) (h + 1) H hEq
          omega
    · rw [if_neg hmod] at hEq
      cases hEq
      rcases Nat.lt_or_ge h j with hlt | hge
      · exfalso
        have hBi : B ∣ i :=
          dvd_trans (dvd_pow_self B (Nat.sub_ne_zero_of_lt hlt)) hdvd
        obtain ⟨c, rfl⟩ := hBi
        exact hmod (Nat.mul_mod_right B c)
      · exact hge

theorem hlf_total (B M : Nat) :
    ∀ (f h i : Nat), 1 ≤ f → M < f + h → (heightLoopF B M f i h).isSome := by
  intro f
  induction f with
  | zero => intro h i hf; omega
  | succ f ih =>
    intro h i _ hMf
    simp only [heightLoopF]
    by_cases hmod : i % B = 0
    · rw [if_pos hmod]
      by_cases hM : M ≤ h
      · rw [if_pos hM]; rfl
      · rw [if_neg hM]
        exact ih (h + 1) (i / B) (by omega) (by omega)
    · rw [if_neg hmod]; rfl

theorem hlf_fuel_mono (B M : Nat) :
    ∀ (f g i h H : Nat), f ≤ g → heightLoopF B M f i h = some H →
      heightLoopF B M g i h = some H := by
  intro f
  induction f with
  | zero => intro g i h H _ hEq; simp [heightLoopF] at hEq
  | succ f ih =>
    intro g i h H hfg hEq
    rcases g with _ | g
    · omega
    simp only [heightLoopF] at hEq ⊢
    by_cases hmod : i % B = 0
    · rw [if_pos hmod] at hEq ⊢
      by_cases hM : M ≤ h
      · rwa [if_pos hM] at hEq ⊢
      · rw [if_neg hM] at hEq ⊢
        exact ih g _ _ _ (by omega) hEq
    · rwa [if_neg hmod] at hEq ⊢

theorem computeHeight_eq (B M index : Nat) (hM : 1 ≤ M) :
    heightLoopF B M (M + 1) index 1 = some (computeHeight B M index) := by
  have h := hlf_total B M (M + 1) 1 index (by omega) (by omega)
  rcases hH : heightLoopF B M (M + 1) index 1 with _ | H
  · rw [hH] at h; simp at h
  · unfold computeHeight
    rw [hH]
    rfl

/- ===== Claim C1 ===== -/

/-- Claim C1: for every non-genesis block created by the append path of
StoreSkipBlock, with inherited BaseHeight at least 1, MaximumHeight at
least 1, and Index equal to prev.Index + 1, the height computed by the loop
of skipchain.go lines 179-185 (computeHeight) is the largest h at most
MaximumHeight such that BaseHeight^(h-1) divides the index. -/
theorem c1_append_height_is_largest (B M prevIndex : Nat)
    (hB : 1 ≤ B) (hM : 1 ≤ M) :
    1 ≤ computeHeight B M (prevIndex + 1)
    ∧ computeHeight B M (prevIndex + 1) ≤ M
    ∧ B ^ (computeHeight B M (prevIndex + 1) - 1) ∣ (prevIndex + 1)
    ∧ ∀ h, h ≤ M → B ^ (h - 1) ∣ (prevIndex + 1) →
        h ≤ computeHeight B M (prevIndex + 1) := by
  have hEq := computeHeight_eq B M (prevIndex + 1) hM
  refine ⟨hlf_ge B M (M + 1) (prevIndex + 1) 1 _ hEq,
    hlf_le B M (M + 1) (prevIndex + 1) 1 _ hM hEq,
    hlf_dvd B M (M + 1) (prevIndex + 1) 1 _ hEq, ?_⟩
  intro h hhM hdvd
  rcases Nat.eq_zero_or_pos h with rfl | hpos
  · exact Nat.zero_le _
  · exact hlf_max B M (M + 1) (prevIndex + 1) 1 _ hEq h hpos hhM hdvd

/-- Witness for C1 at BaseHeight 2, MaximumHeight 3, prev.Index 3
(Index 4): the computed height is 3 and it is the largest qualifying
height. -/
theorem c1_witness :
    1 ≤ computeHeight 2 3 4 ∧ computeHeight 2 3 4 ≤ 3
    ∧ 2 ^ (computeHeight 2 3 4 - 1) ∣ 4
    ∧ ∀ h, h ≤ 3 → 2 ^ (h - 1) ∣ 4 → h ≤ computeHeight 2 3 4 :=
  c1_append_height_is_largest 2 3 3 (by decide) (by decide)

/- ===== Claim C10 ===== -/

/-- Claim C10: the height-computation loop terminates for every input in
the genesis-validated bounds 1 at most MaximumHeight at most BaseHeight and
Index at least 1: fuel MaximumHeight suffices for the fueled loop to return
the computed height (so the Go loop performs at most MaximumHeight
iterations); when BaseHeight is at least 2 the dividend strictly decreases
with each division; when BaseHeight is 1 (forcing MaximumHeight 1) the
loop breaks on its first iteration. -/
theorem c10_height_loop_terminates (B M i : Nat)
    (hM : 1 ≤ M) (hMB : M ≤ B) (hi : 1 ≤ i) :
    heightLoopF B M M i 1 = some (computeHeight B M i)
    ∧ (2 ≤ B → ∀ j, 1 ≤ j → j % B = 0 → j / B < j)
    ∧ (B = 1 → heightLoopF B M 1 i 1 = some 1) := by
  refine ⟨?_, ?_, ?_⟩
  · have hEq := computeHeight_eq B M i hM
    rcases hH : heightLoopF B M M i 1 with _ | H
    · exfalso
      have h := hlf_total B M M 1 i (by omega) (by omega)
      rw [hH] at h
      simp at h
    · have h2 := hlf_fuel_mono B M M (M + 1) i 1 H (by omega) hH
      rw [h2] at hEq
      exact hEq
  · intro hB2 j hj hjB
    exact Nat.div_lt_self (by omega) (by omega)
  · intro hB1
    subst hB1
    have hM1 : M = 1 := by omega
    subst hM1
    simp [heightLoopF]

/-- Witness for C10 at BaseHeight 2, MaximumHeight 2, Index 4: fuel 2
suffices and the loop value is the computed height 2. -/
theorem c10_witness :
    heightLoopF 2 2 4 2 1 = some (computeHeight 2 2 4)
    ∧ (2 ≤ 2 → ∀ j, 1 ≤ j → j % 2 = 0 → j / 2 < j)
    ∧ (2 = 1 → heightLoopF 2 2 1 4 1 = some 1) := by
  have h := c10_height_loop_terminates 2 2 4 (by decide) (by decide) (by decide)
  exact ⟨h.1, h.2.1, h.2.2⟩

/- ===== Claim C9 ===== -/

/-- A store holding a single block whose level-0 forward link points to a
hash absent from the store. -/
def danglingStore : List SkipBlock :=
  [{ blankBlock with
     Index := 0, Height := 1, MaximumHeight := 1,
     BaseHeight := 1, BackLinkIDs := [[3]], Roster := [0], Hash := [1],
     ForwardLink := [⟨[99], [2]⟩] }]

/-- Claim C9: GetSingleBlockByIndex is total only under the precondition
that every block on the ForwardLink[0] walk from genesis is stored: on a
store containing a block whose ForwardLink[0] target hash is absent, the
walk dereferences the missing (nil) block instead of reaching the
BlockNotFound branch. -/
theorem c9_by_index_nil_deref :
    getByID danglingStore [99] = none
    ∧ getSingleBlockByIndex danglingStore [1] 5 = .nilDeref
    ∧ getSingleBlockByIndex danglingStore [1] 5 ≠ .notFound := by
  decide

/- ===== Claim C8 ===== -/

/-- An oracle under which no Schnorr signature verifies. -/
def oracleNoSig : Oracle :=
  { oracleYes with verifySchnorr := fun _ _ _ => false }

/-- Counterexample to claim C8 as stated: with no registered client keys,
a SettingAuthentication call whose signature is verifiable by no authorized
key still succeeds and sets the level (verifySigs accepts everything when
the client list is empty), instead of returning ParameterWrong and leaving
the level unchanged. -/
theorem c8_counterexample :
    emptyState.Clients = []
    ∧ (∀ c ∈ emptyState.Clients, oracleNoSig.verifySchnorr c [1] [] = false)
    ∧ (settingAuthentication oracleNoSig emptyState 1 []).1 = .ok ()
    ∧ (settingAuthentication oracleNoSig emptyState 1 []).2.AuthSkipchain = 1
    ∧ emptyState.AuthSkipchain = 0 := by
  refine ⟨rfl, by simp [emptyState], by decide, by decide, by decide⟩

/-- Claim C8 amended: when at least one client key is registered, a call
whose signature is verifiable by no client key returns ParameterWrong and
leaves the authentication level unchanged; and whenever verifySigs accepts
(some client key verifies, or no client keys are registered) and the level
is 0 or 1, the policy level is set.  (With an empty client list every
signature is accepted.) -/
theorem c8_amended_auth_setting :
    (∀ (O : Oracle) (s : ServiceState) (level : Int) (sig : List Nat),
      s.Clients ≠ [] →
      (∀ c ∈ s.Clients, O.verifySchnorr c [(level % 256).toNat] sig = false) →
      settingAuthentication O s level sig = (.error ErrorParameterWrong, s))
    ∧ (∀ (O : Oracle) (s : ServiceState) (level : Int) (sig : List Nat),
      verifySigs O s [(level % 256).toNat] sig = true →
      0 ≤ level → level ≤ 1 →
      settingAuthentication O s level sig =
        (.ok (), { s with AuthSkipchain := level })) := by
  constructor
  · intro O s level sig hne hall
    have hv : verifySigs O s [(level % 256).toNat] sig = false := by
      unfold verifySigs
      rw [if_neg (by simpa using hne)]
      rw [List.any_eq_false]
      intro c hc
      simp [hall c hc]
    unfold settingAuthentication
    rw [if_pos (by simp [hv])]
  · intro O s level sig hv h0 h1
    unfold settingAuthentication
    rw [if_neg (by simp [hv])]
    rw [if_neg (by omega)]
    rw [if_neg (by omega)]

/-- Witness for the amended C8: with one client key and a never-verifying
signature the call fails and the state is unchanged; with an accepting
signature the level is set to 1. -/
theorem c8_witness :
    settingAuthentication oracleNoSig { emptyState with Clients := [5] } 1 []
      = (.error ErrorParameterWrong, { emptyState with Clients := [5] })
    ∧ settingAuthentication oracleYes emptyState 1 []
      = (.ok (), { emptyState with AuthSkipchain := 1 }) :=
  ⟨c8_amended_auth_setting.1 oracleNoSig { emptyState with Clients := [5] } 1 []
      (by decide) (by decide),
   c8_amended_auth_setting.2 oracleYes emptyState 1 []
      (by decide) (by decide) (by decide)⟩

/- ===== Claim C3 ===== -/

/-- A list of length one containing a has head a. -/
theorem head_of_singleton_mem (l : List Nat) (a : Nat)
    (h1 : l.length = 1) (h2 : a ∈ l) : l.head? = some a := by
  rcases l with _ | ⟨x, _ | ⟨y, rest⟩⟩
  · simp at h1
  · rcases List.mem_singleton.mp h2 with rfl
    rfl
  · simp at h1

/-- Closed form of the case-1 roster scan of blockIsFriendly: it accepts
iff some member different from self lies in a followed roster, or the
roster is a singleton containing self, or the scan starts at offset 0 and
self is the first member. -/
theorem friendlyScan_iff (self : Nat) (follow : List SkipBlock) (len : Nat) :
    ∀ (l : List Nat) (i : Nat),
      friendlyScan self follow len i l = true ↔
        ((∃ si ∈ l, si ≠ self ∧ ∃ fb ∈ follow, si ∈ fb.Roster)
         ∨ (len = 1 ∧ self ∈ l)
         ∨ (i = 0 ∧ l.head? = some self)) := by
  intro l
  induction l with
  | nil => intro i; simp [friendlyScan]
  | cons si rest ih =>
    intro i
    by_cases hsi : si = self
    · subst hsi
      by_cases hcond : len = 1 ∨ i = 0
      · rw [friendlyScan, if_neg (by simp), if_pos hcond]
        simp only [true_iff]
        rcases hcond with h1 | h0
        · exact Or.inr (Or.inl ⟨h1, List.mem_cons_self _ _⟩)
        · exact Or.inr (Or.inr ⟨h0, rfl⟩)
      · rw [friendlyScan, if_neg (by simp), if_neg hcond, ih]
        push_neg at hcond
        constructor
        · rintro (⟨si0, hmem, hne, hfb⟩ | ⟨h1, _⟩ | ⟨h0, _⟩)
          · exact Or.inl ⟨si0, List.mem_cons_of_mem _ hmem, hne, hfb⟩
          · exact absurd h1 hcond.1
          · omega
        · rintro (⟨si0, hmem, hne, hfb⟩ | ⟨h1, _⟩ | ⟨h0, _⟩)
          · rcases List.mem_cons.mp hmem with rfl | hmem2
            · exact absurd rfl hne
            · exact Or.inl ⟨si0, hmem2, hne, hfb⟩
          · exact absurd h1 hcond.1
          · exact absurd h0 hcond.2
    · by_cases hC : (follow.any fun fb => fb.Roster.contains si) = true
      · rw [friendlyScan, if_pos hsi, if_pos hC]
        simp only [true_iff]
        refine Or.inl ⟨si, List.mem_cons_self _ _, hsi, ?_⟩
        simpa using hC
      · rw [friendlyScan, if_pos hsi, if_neg hC, ih]
        have hCne : ∀ fb ∈ follow, si ∉ fb.Roster := by
          intro fb hfb hmem
          exact hC (by simp; exact ⟨fb, hfb, hmem⟩)
        constructor
        · rintro (⟨si0, hmem, hne, hfb⟩ | ⟨h1, hm⟩ | ⟨h0, _⟩)
          · exact Or.inl ⟨si0, List.mem_cons_of_mem _ hmem, hne, hfb⟩
          · exact Or.inr (Or.inl ⟨h1, List.mem_cons_of_mem _ hm⟩)
          · omega
        · rintro (⟨si0, hmem, hne, hfb⟩ | ⟨h1, hm⟩ | ⟨h0, hh⟩)
          · rcases List.mem_cons.mp hmem with rfl | hmem2
            · obtain ⟨fb, hfb1, hfb2⟩ := hfb
              exact absurd hfb2 (hCne fb hfb1)
            · exact Or.inl ⟨si0, hmem2, hne, hfb⟩
          · rcases List.mem_cons.mp hm with rfl | hm2
            · exact absurd rfl hsi
            · exact Or.inr (Or.inl ⟨h1, hm2⟩)
          · rw [List.head?_cons] at hh
            cases hh
            exact absurd rfl hsi

/-- Counterexample input for claim C3: authentication level 1, nothing
stored, nothing followed. -/
def cexStateC3 : ServiceState := { emptyState with AuthSkipchain := 1 }

/-- Counterexample input for claim C3: a block whose roster is the
singleton consisting of this node. -/
def cexBlockC3 : SkipBlock := { blankBlock with Roster := [0], Hash := [1] }

/-- The right-hand side of claim C3 taken literally from its words: the
chain id is stored, or it is in FollowIDs, or some roster member other
than self at index 0 coincides with a member of a followed latest block
roster. -/
def friendlySpecClaimC3 (self : Nat) (s : ServiceState) (sb : SkipBlock) :
    Bool :=
  (getByID s.Sbm (skipChainID sb)).isSome
  || s.FollowIDs.contains (skipChainID sb)
  || sb.Roster.enum.any (fun p =>
       !(p.2 == self && p.1 == 0)
       && s.Follow.any (fun fb => fb.Roster.contains p.2))

/-- Counterexample to claim C3 as stated: at level 1 a block proposing a
new chain whose roster is the singleton [self] is accepted by
blockIsFriendly although its chain id is not stored, not in FollowIDs, and
no member other than self at index 0 coincides with any followed roster;
the claimed iff is false. -/
theorem c3_counterexample :
    cexStateC3.AuthSkipchain = 1
    ∧ getByID cexStateC3.Sbm (skipChainID cexBlockC3) = none
    ∧ blockIsFriendly 0 cexStateC3 cexBlockC3 = true
    ∧ friendlySpecClaimC3 0 cexStateC3 cexBlockC3 = false := by
  refine ⟨by decide, by decide, by decide, by decide⟩

/-- Claim C3 amended: at authentication level 1, blockIsFriendly accepts a
block iff its chain id is already stored, or its chain id is in FollowIDs,
or self is the leader (index 0) of the proposed roster, or some roster
member different from self coincides with a member of a followed latest
block roster.  The third disjunct (the code unconditionally accepts a
block whose roster head is self) is the one the original claim lacks. -/
theorem c3_amended_friendly_iff (self : Nat) (s : ServiceState)
    (sb : SkipBlock) (hAuth : s.AuthSkipchain = 1) :
    blockIsFriendly self s sb = true ↔
      ((getByID s.Sbm (skipChainID sb)).isSome = true
       ∨ skipChainID sb ∈ s.FollowIDs
       ∨ sb.Roster.head? = some self
       ∨ ∃ si ∈ sb.Roster, si ≠ self ∧ ∃ fb ∈ s.Follow, si ∈ fb.Roster) := by
  unfold blockIsFriendly
  rw [if_neg (by rw [hAuth]; decide)]
  by_cases hstore : (getByID s.Sbm (skipChainID sb)).isSome = true
  · rw [if_pos hstore]
    simp only [true_iff]
    exact Or.inl hstore
  · rw [if_neg hstore]
    by_cases hfid : (s.FollowIDs.any fun id => id == skipChainID sb) = true
    · rw [if_pos hfid]
      simp only [true_iff]
      obtain ⟨x, hx, hbeq⟩ := List.any_eq_true.mp hfid
      rw [eq_of_beq hbeq] at hx
      exact Or.inr (Or.inl hx)
    · have hnotmem : skipChainID sb ∉ s.FollowIDs := by
        intro hmem
        exact hfid (List.any_eq_true.mpr ⟨skipChainID sb, hmem, by simp⟩)
      rw [if_neg hfid, if_pos hAuth, friendlyScan_iff]
      constructor
      · rintro (hco | ⟨h1, hm⟩ | ⟨_, hh⟩)
        · exact Or.inr (Or.inr (Or.inr hco))
        · exact Or.inr (Or.inr (Or.inl
            (head_of_singleton_mem sb.Roster self h1 hm)))
        · exact Or.inr (Or.inr (Or.inl hh))
      · rintro (h | h | h | h)
        · exact absurd h hstore
        · exact absurd h hnotmem
        · exact Or.inr (Or.inr ⟨rfl, h⟩)
        · exact Or.inl h

/-- Witness for the amended C3 on a concrete state: a block whose chain id
is in FollowIDs is friendly at level 1. -/
theorem c3_witness :
    blockIsFriendly 0 { cexStateC3 with FollowIDs := [[1]] } cexBlockC3 = true :=
  (c3_amended_friendly_iff 0 { cexStateC3 with FollowIDs := [[1]] }
    cexBlockC3 rfl).mpr (Or.inr (Or.inl (by decide)))

/- ===== Claim C4 ===== -/

/-- Claim C4: at most one append is in flight per source block.  (1) Every
reachable state of the newBlocks key set is duplicate-free; (2)
newBlockStart returns false whenever its key is already in flight; (3) a
StoreSkipBlock append call whose newBlockStart fails returns the
BlockInProgress error and leaves the whole service state, in particular the
block store, unchanged. -/
theorem c4_single_flight :
    (∀ l, NBReachable l → l.Nodup)
    ∧ (∀ (s : ServiceState) (sb : SkipBlock),
        s.newBlocks.contains sb.Hash = true → (newBlockStart s sb).1 = false)
    ∧ (∀ (O : Oracle) (fs : Nat → Bool) (self : Nat) (s : ServiceState)
        (req : StoreReq) (prev : SkipBlock),
        req.NewBlock.Roster.head? = some self →
        (0 < s.AuthSkipchain → authSigOk O self s req = true) →
        req.LatestID.isEmpty = false →
        getByID s.Sbm req.LatestID = some prev →
        prev.Roster.contains self = true →
        prev.ForwardLink = [] →
        (nbStart s.newBlocks prev.Hash).1 = false →
        storeSkipBlock O fs self s req = (.error ErrorBlockInProgress, s)) := by
  refine ⟨?_, ?_, ?_⟩
  · intro l h
    induction h with
    | init => exact List.nodup_nil
    | step_start l k _ ih =>
      by_cases h1 : l.contains k = true
      · have : nbStart l k = (false, l) := by unfold nbStart; rw [if_pos h1]
        rw [this]
        exact ih
      · by_cases h2 : 0 < l.length
        · have : nbStart l k = (false, l) := by
            unfold nbStart
            rw [if_neg h1, if_pos h2]
          rw [this]
          exact ih
        · have hl : l = [] := List.length_eq_zero.mp (by omega)
          subst hl
          have : nbStart [] k = (true, [k]) := by
            unfold nbStart
            rw [if_neg h1, if_neg h2]
            rfl
          rw [this]
          simp
    | step_end l k _ ih => exact ih.filter _
  · intro s sb h
    unfold newBlockStart nbStart
    rw [if_pos h]
  · intro O fs self s req prev hLead hAuth hLid hPrev hMem hFL hStart
    unfold storeSkipBlock
    rw [if_neg (by simp [hLead])]
    rw [if_neg (by rintro ⟨ha1, ha2⟩; exact ha2 (hAuth ha1))]
    rw [if_neg (by simp [hLid])]
    unfold appendPath
    rw [hPrev]
    dsimp only
    rw [if_neg (by rw [hMem]; decide)]
    rw [if_neg (by simp [hFL])]
    rcases hnb : nbStart s.newBlocks prev.Hash with ⟨b, nl⟩
    rw [hnb] at hStart
    simp only at hStart
    subst hStart
    rfl

/-- A stored block used by the single-flight witness; an append to it is
already in flight. -/
def inFlightBlock : SkipBlock :=
  { blankBlock with
    Index := 0, Height := 1, MaximumHeight := 1,
    BaseHeight := 1, BackLinkIDs := [[3]], Roster := [0], Hash := [2] }

/-- The service state of the single-flight witness: inFlightBlock is
stored and its key is in the newBlocks set. -/
def inFlightState : ServiceState :=
  { emptyState with Sbm := [inFlightBlock], newBlocks := [[2]] }

/-- The colliding append request of the single-flight witness. -/
def inFlightReq : StoreReq :=
  { LatestID := [2], NewBlock := { blankBlock with Roster := [0] },
    Signature := none }

/-- A state whose newBlocks set already holds the key [7]. -/
def busyState : ServiceState := { emptyState with newBlocks := [[7]] }

/-- A block whose hash is the in-flight key [7]. -/
def busyBlock : SkipBlock := { blankBlock with Hash := [7] }

/-- Witness for C4: a one-step reachable key set is duplicate-free; a
newBlockStart on a key in flight fails; the concrete colliding append
returns BlockInProgress with the state unchanged. -/
theorem c4_witness :
    ([[5]] : List SkipBlockID).Nodup
    ∧ (newBlockStart busyState busyBlock).1 = false
    ∧ storeSkipBlock oracleYes fsAll 0 inFlightState inFlightReq
        = (.error ErrorBlockInProgress, inFlightState) := by
  refine ⟨?_, ?_, ?_⟩
  · refine c4_single_flight.1 [[5]] ?_
    have h := NBReachable.step_start [] [5] NBReachable.init
    have he : (nbStart [] [5]).2 = [[5]] := by decide
    rwa [he] at h
  · exact c4_single_flight.2.1 busyState busyBlock (by decide)
  · exact c4_single_flight.2.2 oracleYes fsAll 0 inFlightState inFlightReq
      inFlightBlock (by decide) (by decide) (by decide) (by decide) (by decide)
      (by decide) (by decide)

/- ===== Claim C5 ===== -/

/-- Claim C5: on the append path (LatestID non-empty, leader and
authentication gates passed), StoreSkipBlock returns an error and leaves
the whole service state (in particular the block store and every forward
link) unchanged whenever the latest block is missing (BlockNotFound), or
self is not in the roster of the latest block (BlockContent), or the
latest block already has a forward link (BlockContent). -/
theorem c5_append_error_paths (O : Oracle) (fs : Nat → Bool) (self : Nat)
    (s : ServiceState) (req : StoreReq)
    (hLead : req.NewBlock.Roster.head? = some self)
    (hAuth : 0 < s.AuthSkipchain → authSigOk O self s req = true)
    (hLid : req.LatestID.isEmpty = false) :
    (getByID s.Sbm req.LatestID = none →
      storeSkipBlock O fs self s req = (.error ErrorBlockNotFound, s))
    ∧ (∀ prev, getByID s.Sbm req.LatestID = some prev →
        prev.Roster.contains self = false →
        storeSkipBlock O fs self s req = (.error ErrorBlockContent, s))
    ∧ (∀ prev, getByID s.Sbm req.LatestID = some prev →
        prev.Roster.contains self = true →
        prev.ForwardLink ≠ [] →
        storeSkipBlock O fs self s req = (.error ErrorBlockContent, s)) := by
  have hGates : storeSkipBlock O fs self s req
      = appendPath O fs self s req.LatestID req.NewBlock := by
    unfold storeSkipBlock
    rw [if_neg (by simp [hLead])]
    rw [if_neg (by rintro ⟨ha1, ha2⟩; exact ha2 (hAuth ha1))]
    rw [if_neg (by simp [hLid])]
  refine ⟨?_, ?_, ?_⟩
  · intro hPrev
    rw [hGates]
    unfold appendPath
    rw [hPrev]
  · intro prev hPrev hMem
    rw [hGates]
    unfold appendPath
    rw [hPrev]
    dsimp only
    rw [if_pos hMem]
  · intro prev hPrev hMem hFL
    rw [hGates]
    unfold appendPath
    rw [hPrev]
    dsimp only
    rw [if_neg (by rw [hMem]; decide)]
    rw [if_pos (List.length_pos.mpr hFL)]

/-- A stored block that already carries a forward link, for the C5
witness. -/
def extendedBlock : SkipBlock :=
  { blankBlock with
    Index := 0, Height := 1, MaximumHeight := 1,
    BaseHeight := 1, BackLinkIDs := [[3]], Roster := [0], Hash := [4],
    ForwardLink := [⟨[9], [1]⟩] }

/-- A stored block whose roster does not contain node 0, for the C5
witness. -/
def foreignBlock : SkipBlock :=
  { blankBlock with
    Index := 0, Height := 1, MaximumHeight := 1,
    BaseHeight := 1, BackLinkIDs := [[3]], Roster := [1, 2], Hash := [6] }

/-- The store of the C5 witness. -/
def c5State : ServiceState :=
  { emptyState with Sbm := [extendedBlock, foreignBlock] }

/-- C5 witness request naming a latest id absent from the store. -/
def c5ReqMissing : StoreReq :=
  { LatestID := [8], NewBlock := { blankBlock with Roster := [0] },
    Signature := none }

/-- C5 witness request naming the block whose roster excludes node 0. -/
def c5ReqForeign : StoreReq :=
  { LatestID := [6], NewBlock := { blankBlock with Roster := [0] },
    Signature := none }

/-- C5 witness request naming the block that already has a follower. -/
def c5ReqExtended : StoreReq :=
  { LatestID := [4], NewBlock := { blankBlock with Roster := [0] },
    Signature := none }

/-- Witness for C5: a missing latest id yields BlockNotFound; a latest
block without self in its roster yields BlockContent; a latest block that
already has a forward link yields BlockContent; the state is unchanged in
all three cases. -/
theorem c5_witness :
    storeSkipBlock oracleYes fsAll 0 c5State c5ReqMissing
      = (.error ErrorBlockNotFound, c5State)
    ∧ storeSkipBlock oracleYes fsAll 0 c5State c5ReqForeign
      = (.error ErrorBlockContent, c5State)
    ∧ storeSkipBlock oracleYes fsAll 0 c5State c5ReqExtended
      = (.error ErrorBlockContent, c5State) :=
  ⟨(c5_append_error_paths oracleYes fsAll 0 c5State c5ReqMissing
      (by decide) (by decide) (by decide)).1 (by decide),
   (c5_append_error_paths oracleYes fsAll 0 c5State c5ReqForeign
      (by decide) (by decide) (by decide)).2.1 foreignBlock (by decide)
      (by decide),
   (c5_append_error_paths oracleYes fsAll 0 c5State c5ReqExtended
      (by decide) (by decide) (by decide)).2.2 extendedBlock (by decide)
      (by decide) (by decide)⟩

/- ===== Claim C6 ===== -/

/-- Claim C6: every successful StoreSkipBlock call with empty LatestID
returns a Latest block with Index 0, Height equal to the client-supplied
MaximumHeight, an empty ForwardLink slice, BackLinkIDs equal to the single
random value (length exactly 1), empty GenesisID, and a Hash recomputed
over the immutable fields, regardless of the values the client supplied in
those fields; the reply carries no Previous block. -/
theorem c6_genesis_reply_fields (O : Oracle) (fs : Nat → Bool) (self : Nat)
    (s : ServiceState) (req : StoreReq) (r : StoreReply)
    (hLid : req.LatestID.isEmpty = true)
    (hOk : (storeSkipBlock O fs self s req).1 = .ok r) :
    r.Previous = none
    ∧ r.Latest.Index = 0
    ∧ r.Latest.Height = req.NewBlock.MaximumHeight
    ∧ r.Latest.MaximumHeight = req.NewBlock.MaximumHeight
    ∧ r.Latest.ForwardLink = []
    ∧ r.Latest.BackLinkIDs = [O.rnd]
    ∧ r.Latest.BackLinkIDs.length = 1
    ∧ r.Latest.GenesisID = []
    ∧ r.Latest.Hash = O.hashFix (fixOf r.Latest) := by
  unfold storeSkipBlock at hOk
  by_cases h1 : req.NewBlock.Roster.head? ≠ some self
  · rw [if_pos h1] at hOk
    exact absurd hOk (by simp)
  · rw [if_neg h1] at hOk
    by_cases h2 : 0 < s.AuthSkipchain ∧ ¬ (authSigOk O self s req = true)
    · rw [if_pos h2] at hOk
      exact absurd hOk (by simp)
    · rw [if_neg h2] at hOk
      rw [if_pos hLid] at hOk
      simp only [genesisPath] at hOk
      split at hOk
      · exact absurd hOk (by simp)
      · split at hOk
        · exact absurd hOk (by simp)
        · split at hOk
          · split at hOk
            · exact absurd hOk (by simp)
            · unfold finishCall at hOk
              split at hOk
              · simp only at hOk
                cases hOk
                exact ⟨rfl, rfl, rfl, rfl, rfl, rfl, rfl, rfl, rfl⟩
              · exact absurd hOk (by simp)
          · unfold finishCall at hOk
            split at hOk
            · simp only at hOk
              cases hOk
              exact ⟨rfl, rfl, rfl, rfl, rfl, rfl, rfl, rfl, rfl⟩
            · exact absurd hOk (by simp)

/-- The genesis request of the C6 witness: MaximumHeight 2, BaseHeight 2,
roster of three nodes led by node 0, as in spec scenario S1. -/
def c6Req : StoreReq :=
  { LatestID := [], Signature := none,
    NewBlock := { blankBlock with
      MaximumHeight := 2, BaseHeight := 2, Roster := [0, 1, 2] } }

/-- The reply of the concrete C6 genesis run. -/
def c6Reply : StoreReply :=
  match (storeSkipBlock oracleYes fsAll 0 emptyState c6Req).1 with
  | .ok r => r
  | .error _ => { Previous := none, Latest := blankBlock }

/-- Witness for C6: the concrete genesis run succeeds and its reply has
the required shape. -/
theorem c6_witness :
    c6Reply.Previous = none
    ∧ c6Reply.Latest.Index = 0
    ∧ c6Reply.Latest.Height = c6Req.NewBlock.MaximumHeight
    ∧ c6Reply.Latest.MaximumHeight = c6Req.NewBlock.MaximumHeight
    ∧ c6Reply.Latest.ForwardLink = []
    ∧ c6Reply.Latest.BackLinkIDs = [oracleYes.rnd]
    ∧ c6Reply.Latest.BackLinkIDs.length = 1
    ∧ c6Reply.Latest.GenesisID = []
    ∧ c6Reply.Latest.Hash = oracleYes.hashFix (fixOf c6Reply.Latest) :=
  c6_genesis_reply_fields oracleYes fsAll 0 emptyState c6Req c6Reply
    (by decide) (by decide)

/- ===== Claim C7 ===== -/

/-- Claim C7 amended: for every block successfully appended to an existing
chain, MaximumHeight, BaseHeight and VerifierIDs equal the corresponding
fields of the previous block, while ParentBlockID is always set to empty
(so it equals the previous block's ParentBlockID only when that is empty;
a genesis block may carry a non-empty one). -/
theorem c7_amended_inheritance (O : Oracle) (fs : Nat → Bool) (self : Nat)
    (s : ServiceState) (req : StoreReq) (r : StoreReply) (prev : SkipBlock)
    (hLid : req.LatestID.isEmpty = false)
    (hPrev : getByID s.Sbm req.LatestID = some prev)
    (hOk : (storeSkipBlock O fs self s req).1 = .ok r) :
    r.Latest.MaximumHeight = prev.MaximumHeight
    ∧ r.Latest.BaseHeight = prev.BaseHeight
    ∧ r.Latest.VerifierIDs = prev.VerifierIDs
    ∧ r.Latest.ParentBlockID = ([] : SkipBlockID) := by
  unfold storeSkipBlock at hOk
  by_cases h1 : req.NewBlock.Roster.head? ≠ some self
  · rw [if_pos h1] at hOk
    exact absurd hOk (by simp)
  · rw [if_neg h1] at hOk
    by_cases h2 : 0 < s.AuthSkipchain ∧ ¬ (authSigOk O self s req = true)
    · rw [if_pos h2] at hOk
      exact absurd hOk (by simp)
    · rw [if_neg h2] at hOk
      rw [if_neg (by simp [hLid])] at hOk
      simp only [appendPath] at hOk
      rw [hPrev] at hOk
      dsimp only at hOk
      split at hOk
      · exact absurd hOk (by simp)
      · split at hOk
        · exact absurd hOk (by simp)
        · split at hOk
          · exact absurd hOk (by simp)
          · split at hOk
            · exact absurd hOk (by simp)
            · rename_i prop hBp
              split at hOk
              · exact absurd hOk (by simp)
              · split at hOk
                · exact absurd hOk (by simp)
                · split at hOk
                  · exact absurd hOk (by simp)
                  · unfold finishCall at hOk
                    split at hOk
                    · simp only at hOk
                      cases hOk
                      have hf := buildProp_fields O _ prev _ _ hBp
                      exact ⟨hf.1, hf.2.1, hf.2.2.1, hf.2.2.2.1⟩
                    · exact absurd hOk (by simp)

/-- The immutable part of the parent-chain genesis of the C7
counterexample. -/
def parentFixC7 : SkipBlockFix :=
  { Index := 0, Height := 1, MaximumHeight := 1, BaseHeight := 1,
    BackLinkIDs := [[11]], VerifierIDs := [], ParentBlockID := [],
    GenesisID := [], Data := [], Roster := [0] }

/-- The immutable part of a genesis block anchored below the parent chain:
its ParentBlockID names the parent genesis. -/
def childFixC7 : SkipBlockFix :=
  { Index := 0, Height := 1, MaximumHeight := 1, BaseHeight := 1,
    BackLinkIDs := [[12]], VerifierIDs := [], ParentBlockID := hashFixModel parentFixC7,
    GenesisID := [], Data := [], Roster := [0] }

/-- The parent-chain genesis block of the C7 counterexample. -/
def parentBlockC7 : SkipBlock :=
  { Index := 0, Height := 1, MaximumHeight := 1, BaseHeight := 1,
    BackLinkIDs := [[11]], VerifierIDs := [], ParentBlockID := [],
    GenesisID := [], Data := [], Roster := [0],
    Hash := hashFixModel parentFixC7, ForwardLink := [],
    ChildSL := [hashFixModel childFixC7] }

/-- The genesis-with-parent block of the C7 counterexample, exactly as the
genesis path would have produced it. -/
def genesisWithParentC7 : SkipBlock :=
  { Index := 0, Height := 1, MaximumHeight := 1, BaseHeight := 1,
    BackLinkIDs := [[12]], VerifierIDs := [], ParentBlockID := hashFixModel parentFixC7,
    GenesisID := [], Data := [], Roster := [0],
    Hash := hashFixModel childFixC7, ForwardLink := [], ChildSL := [] }

/-- The C7 counterexample state: the parent genesis and the child-chain
genesis (whose ParentBlockID is non-empty) are stored. -/
def c7State : ServiceState :=
  { emptyState with Sbm := [parentBlockC7, genesisWithParentC7] }

/-- The C7 append request extending the genesis-with-parent block. -/
def c7Req : StoreReq :=
  { LatestID := hashFixModel childFixC7,
    NewBlock := { blankBlock with Roster := [0] }, Signature := none }

/-- The reply of the concrete C7 append run. -/
def c7Reply : StoreReply :=
  match (storeSkipBlock oracleYes fsAll 0 c7State c7Req).1 with
  | .ok r => r
  | .error _ => { Previous := none, Latest := blankBlock }

/-- Counterexample to claim C7 as stated: appending to a genesis block
whose ParentBlockID is non-empty succeeds, and the appended block's
ParentBlockID is empty, hence differs from the corresponding field of the
previous block: ParentBlockID is not inherited. -/
theorem c7_counterexample :
    (storeSkipBlock oracleYes fsAll 0 c7State c7Req).1 = .ok c7Reply
    ∧ getByID c7State.Sbm c7Req.LatestID = some genesisWithParentC7
    ∧ genesisWithParentC7.ParentBlockID ≠ []
    ∧ c7Reply.Latest.ParentBlockID = []
    ∧ c7Reply.Latest.ParentBlockID ≠ genesisWithParentC7.ParentBlockID := by
  refine ⟨by decide, by decide, by decide, by decide, by decide⟩

/-- Witness for the amended C7 on the concrete run: the three chain
parameters are inherited and ParentBlockID is cleared. -/
theorem c7_witness :
    c7Reply.Latest.MaximumHeight = genesisWithParentC7.MaximumHeight
    ∧ c7Reply.Latest.BaseHeight = genesisWithParentC7.BaseHeight
    ∧ c7Reply.Latest.VerifierIDs = genesisWithParentC7.VerifierIDs
    ∧ c7Reply.Latest.ParentBlockID = ([] : SkipBlockID) :=
  c7_amended_inheritance oracleYes fsAll 0 c7State c7Req c7Reply
    genesisWithParentC7 (by decide) (by decide) (by decide)

/- ===== Claim C2: supporting lemmas ===== -/

/-- A block found under key k has hash k. -/
theorem getByID_hash (sbm : List SkipBlock) (k : SkipBlockID) (b : SkipBlock)
    (h : getByID sbm k = some b) : b.Hash = k := by
  have hp := List.find?_some h
  exact eq_of_beq hp

/-- Key membership after an insert-or-replace. -/
theorem getByID_storeBlock_isSome (sbm : List SkipBlock) (b : SkipBlock)
    (k : SkipBlockID) :
    (getByID (storeBlock sbm b) k).isSome
      = ((getByID sbm k).isSome || (b.Hash == k)) := by
  induction sbm with
  | nil =>
    cases hbk : (b.Hash == k)
    · simp [storeBlock, getByID, List.find?, hbk]
    · simp [storeBlock, getByID, List.find?, hbk]
  | cons x rest ih =>
    simp only [storeBlock]
    by_cases hxb : (x.Hash == b.Hash) = true
    · rw [if_pos hxb]
      have hxbe : x.Hash = b.Hash := eq_of_beq hxb
      cases hbk : (b.Hash == k)
      · have h1 : ((mergeBlock x b).Hash == k) = false := hbk
        have h2 : (x.Hash == k) = false := by rw [hxbe]; exact hbk
        simp only [getByID] at ih ⊢
        rw [List.find?_cons_of_neg _ (by simp [h1]),
          List.find?_cons_of_neg _ (by simp [h2])]
        simp [hbk]
      · have h1 : ((mergeBlock x b).Hash == k) = true := hbk
        have h2 : (x.Hash == k) = true := by rw [hxbe]; exact hbk
        simp only [getByID]
        rw [List.find?_cons_of_pos _ (by simp [h1]),
          List.find?_cons_of_pos _ (by simp [h2])]
        simp
    · rw [if_neg hxb]
      cases hxk : (x.Hash == k)
      · simp only [getByID] at ih ⊢
        rw [List.find?_cons_of_neg _ (by simp [hxk]),
          List.find?_cons_of_neg _ (by simp [hxk])]
        exact ih
      · simp only [getByID]
        rw [List.find?_cons_of_pos _ (by simp [hxk]),
          List.find?_cons_of_pos _ (by simp [hxk])]
        simp

/-- forwardSignature keeps the key set of the store: it only replaces the
(already stored) target block. -/
theorem forwardSignature_keys (O : Oracle) (fsOk : Bool)
    (sbm : List SkipBlock) (th : Nat) (newest : SkipBlock)
    (flHash : SkipBlockID) (sbm2 : List SkipBlock)
    (h : forwardSignature O fsOk sbm th newest flHash = .ok sbm2) :
    ∀ k, (getByID sbm2 k).isSome = (getByID sbm k).isSome := by
  intro k
  unfold forwardSignature at h
  split at h
  · simp at h
  · split at h
    · simp at h
    · rename_i target htgt
      split at h
      · simp at h
      · cases h
        rw [getByID_storeBlock_isSome]
        by_cases hk : (target.Hash == k) = true
        · have hke : target.Hash = k := eq_of_beq hk
          have hbl : target.Hash = newest.BackLinkIDs.getD th [] :=
            getByID_hash _ _ _ htgt
          rw [← hke, hbl, htgt]
          simp
        · simp only [Bool.not_eq_true] at hk
          rw [hk]
          simp

/-- The Sbm component of a service state after replacing it. -/
theorem propagateLocal_mono (O : Oracle) (self : Nat) :
    ∀ (blocks : List SkipBlock) (s : ServiceState) (k : SkipBlockID),
      (getByID s.Sbm k).isSome = true →
      (getByID (propagateLocal O self s blocks) k).isSome = true := by
  intro blocks
  induction blocks with
  | nil => intro s k h; exact h
  | cons b rest ih =>
    intro s k h
    unfold propagateLocal
    split
    · split
      · refine ih _ k ?_
        simp only
        rw [getByID_storeBlock_isSome, h]
        simp
      · exact h
    · exact h

/-- Two stores with the same key set. -/
def keysEqv (sbm1 sbm2 : List SkipBlock) : Prop :=
  ∀ k, (getByID sbm1 k).isSome = (getByID sbm2 k).isSome

/-- The back-fill loop keeps the key set of the store. -/
theorem backfill_keys (O : Oracle) (fs : Nat → Bool) (prop : SkipBlock)
    (flHash : SkipBlockID) :
    ∀ (bls : List SkipBlockID) (i : Nat) (sbm : List SkipBlock),
      keysEqv (backfill O fs prop flHash sbm i bls).2.1 sbm := by
  intro bls
  induction bls with
  | nil => intro i sbm k; rfl
  | cons bl rest ih =>
    intro i sbm k
    simp only [backfill]
    rcases hb : getByID sbm bl with _ | back
    · rfl
    · rcases hf : forwardSignature O (fs (i + 1)) sbm (i + 1) prop flHash
        with e | sbmNew
      · exact ih (i + 1) sbm k
      · have h1 := ih (i + 1) sbmNew k
        have h2 := forwardSignature_keys O (fs (i + 1)) sbm (i + 1) prop
          flHash sbmNew hf k
        simp only
        rw [h1, h2]

/-- The fatal outcome of the back-fill loop, and the key set of its final
store, do not depend on the per-height BFT outcomes: a run with outcomes f
over a store and a run with outcomes g over a key-equivalent store agree on
the fatal flag and end in key-equivalent stores. -/
theorem backfill_indep (O : Oracle) (f g : Nat → Bool) (prop : SkipBlock)
    (flHash : SkipBlockID) :
    ∀ (bls : List SkipBlockID) (i : Nat) (sbm1 sbm2 : List SkipBlock),
      keysEqv sbm1 sbm2 →
      (backfill O f prop flHash sbm1 i bls).1
          = (backfill O g prop flHash sbm2 i bls).1
        ∧ keysEqv (backfill O f prop flHash sbm1 i bls).2.1
            (backfill O g prop flHash sbm2 i bls).2.1 := by
  intro bls
  induction bls with
  | nil => intro i sbm1 sbm2 h; exact ⟨rfl, h⟩
  | cons bl rest ih =>
    intro i sbm1 sbm2 h
    simp only [backfill]
    have hbl := h bl
    rcases hb1 : getByID sbm1 bl with _ | back1
    · rcases hb2 : getByID sbm2 bl with _ | back2
      · exact ⟨rfl, h⟩
      · rw [hb1, hb2] at hbl
        simp at hbl
    · rcases hb2 : getByID sbm2 bl with _ | back2
      · rw [hb1, hb2] at hbl
        simp at hbl
      · have hnext : ∀ (sbm1N sbm2N : List SkipBlock), keysEqv sbm1N sbm2N →
            (backfill O f prop flHash sbm1N (i + 1) rest).1
                = (backfill O g prop flHash sbm2N (i + 1) rest).1
              ∧ keysEqv (backfill O f prop flHash sbm1N (i + 1) rest).2.1
                  (backfill O g prop flHash sbm2N (i + 1) rest).2.1 :=
          fun sbm1N sbm2N hN => ih (i + 1) sbm1N sbm2N hN
        rcases hf1 : forwardSignature O (f (i + 1)) sbm1 (i + 1) prop flHash
          with e1 | sbm1New
        · rcases hf2 : forwardSignature O (g (i + 1)) sbm2 (i + 1) prop flHash
            with e2 | sbm2New
          · exact hnext sbm1 sbm2 h
          · have hk2 := forwardSignature_keys O (g (i + 1)) sbm2 (i + 1) prop
              flHash sbm2New hf2
            have := hnext sbm1 sbm2New (fun k => by rw [h k, ← hk2 k])
            simpa using this
        · rcases hf2 : forwardSignature O (g (i + 1)) sbm2 (i + 1) prop flHash
            with e2 | sbm2New
          · have hk1 := forwardSignature_keys O (f (i + 1)) sbm1 (i + 1) prop
              flHash sbm1New hf1
            have := hnext sbm1New sbm2 (fun k => by rw [hk1 k, h k])
            simpa using this
          · have hk1 := forwardSignature_keys O (f (i + 1)) sbm1 (i + 1) prop
              flHash sbm1New hf1
            have hk2 := forwardSignature_keys O (g (i + 1)) sbm2 (i + 1) prop
              flHash sbm2New hf2
            have := hnext sbm1New sbm2New
              (fun k => by rw [hk1 k, h k, ← hk2 k])
            simpa using this

/-- A successful addForwardLink leaves the source hash stored. -/
theorem addForwardLink_ok_key (O : Oracle) (sbm : List SkipBlock)
    (src dst : SkipBlock) (u : Unit) (sbm2 : List SkipBlock)
    (h : addForwardLink O sbm src dst = (Except.ok u, sbm2)) :
    (getByID sbm2 src.Hash).isSome = true := by
  unfold addForwardLink at h
  split at h
  · simp at h
  · split at h
    · simp at h
    · split at h
      · simp at h
      · split at h
        · simp at h
        · dsimp only at h
          split at h
          · simp at h
          · cases h
            rw [getByID_storeBlock_isSome]
            simp

/-- The result of the append path does not depend on the per-height BFT
outcomes of the back-fill: if a run with outcomes f succeeds, the run with
any outcomes g succeeds with the same Latest block and a Previous block of
the same hash. -/
theorem appendPath_fs_indep (O : Oracle) (f g : Nat → Bool) (self : Nat)
    (s : ServiceState) (latestID : SkipBlockID) (prop0 : SkipBlock)
    (r : StoreReply)
    (hOk : (appendPath O f self s latestID prop0).1 = .ok r) :
    ∃ r2, (appendPath O g self s latestID prop0).1 = .ok r2
      ∧ r2.Latest = r.Latest
      ∧ r2.Previous.map SkipBlock.Hash = r.Previous.map SkipBlock.Hash := by
  simp only [appendPath] at hOk ⊢
  rcases hPrev : getByID s.Sbm latestID with _ | prev
  · rw [hPrev] at hOk
    simp at hOk
  · rw [hPrev] at hOk
    dsimp only at hOk ⊢
    by_cases hMem : prev.Roster.contains self = false
    · rw [if_pos hMem] at hOk
      simp at hOk
    · rw [if_neg hMem] at hOk ⊢
      by_cases hFL : 0 < prev.ForwardLink.length
      · rw [if_pos hFL] at hOk
        simp at hOk
      · rw [if_neg hFL] at hOk ⊢
        rcases hnb : nbStart s.newBlocks prev.Hash with ⟨b, nb1⟩
        rw [hnb] at hOk
        cases b
        · dsimp only at hOk
          simp at hOk
        · dsimp only at hOk ⊢
          rcases hBp : buildProp O s.Sbm prev prop0 with _ | prop
          · rw [hBp] at hOk
            simp at hOk
          · rw [hBp] at hOk
            dsimp only at hOk ⊢
            by_cases hRos : rosterExtensionRefused O prev prop = true
            · rw [if_pos hRos] at hOk
              simp at hOk
            · rw [if_neg hRos] at hOk ⊢
              rcases hAfl : addForwardLink O s.Sbm prev prop with ⟨res, sbm2⟩
              rw [hAfl] at hOk
              cases res with
              | error e =>
                dsimp only at hOk
                simp at hOk
              | ok u =>
                dsimp only at hOk ⊢
                have hIndep := backfill_indep O f g prop prop.Hash
                  (prop.BackLinkIDs.drop 1) 0 sbm2 sbm2 (fun k => rfl)
                by_cases hBf : (backfill O f prop prop.Hash sbm2 0
                    (prop.BackLinkIDs.drop 1)).1 = true
                · rw [if_pos hBf] at hOk
                  simp at hOk
                · rw [if_neg hBf] at hOk
                  rw [if_neg (by rw [← hIndep.1]; exact hBf)]
                  unfold finishCall at hOk ⊢
                  by_cases hProp : O.propagateOk = true
                  · rw [if_pos hProp] at hOk ⊢
                    dsimp only at hOk ⊢
                    cases hOk
                    refine ⟨_, rfl, rfl, ?_⟩
                    dsimp only
                    have hkey2 := addForwardLink_ok_key O s.Sbm prev prop u
                      sbm2 hAfl
                    have hkeyf : (getByID
                        (backfill O f prop prop.Hash sbm2 0
                          (prop.BackLinkIDs.drop 1)).2.1
                        prev.Hash).isSome = true := by
                      rw [backfill_keys O f prop prop.Hash
                        (prop.BackLinkIDs.drop 1) 0 sbm2 prev.Hash]
                      exact hkey2
                    have hkeyg : (getByID
                        (backfill O g prop prop.Hash sbm2 0
                          (prop.BackLinkIDs.drop 1)).2.1
                        prev.Hash).isSome = true := by
                      rw [backfill_keys O g prop prop.Hash
                        (prop.BackLinkIDs.drop 1) 0 sbm2 prev.Hash]
                      exact hkey2
                    have hpf := propagateLocal_mono O self
                      (refreshChanged
                        (backfill O f prop prop.Hash sbm2 0
                          (prop.BackLinkIDs.drop 1)).2.1
                        ([prev, prop] ++ (backfill O f prop prop.Hash sbm2 0
                          (prop.BackLinkIDs.drop 1)).2.2))
                      { s with
                        newBlocks := nb1,
                        Sbm := (backfill O f prop prop.Hash sbm2 0
                          (prop.BackLinkIDs.drop 1)).2.1 }
                      prev.Hash hkeyf
                    have hpg := propagateLocal_mono O self
                      (refreshChanged
                        (backfill O g prop prop.Hash sbm2 0
                          (prop.BackLinkIDs.drop 1)).2.1
                        ([prev, prop] ++ (backfill O g prop prop.Hash sbm2 0
                          (prop.BackLinkIDs.drop 1)).2.2))
                      { s with
                        newBlocks := nb1,
                        Sbm := (backfill O g prop prop.Hash sbm2 0
                          (prop.BackLinkIDs.drop 1)).2.1 }
                      prev.Hash hkeyg
                    obtain ⟨bg, hbg⟩ := Option.isSome_iff_exists.mp hpg
                    obtain ⟨bff, hbf2⟩ := Option.isSome_iff_exists.mp hpf
                    simp only [Option.some_bind]
                    rw [hbg, hbf2]
                    simp [getByID_hash _ _ _ hbg, getByID_hash _ _ _ hbf2]
                  · rw [if_neg hProp] at hOk
                    simp at hOk

/- ===== Claim C2 ===== -/

/-- Claim C2: in the back-fill of higher forward links every BFT failure
is non-fatal: whenever a StoreSkipBlock run (in which the level-0 forward
link was signed and attached) succeeds under some per-height back-fill
outcomes f, it succeeds under every other assignment g of back-fill
outcomes, with the same Latest block and a Previous block of the same
hash; the back-fill failures are only logged. -/
theorem c2_backfill_failure_nonfatal (O : Oracle) (f g : Nat → Bool)
    (self : Nat) (s : ServiceState) (req : StoreReq) (r : StoreReply)
    (hOk : (storeSkipBlock O f self s req).1 = .ok r) :
    ∃ r2, (storeSkipBlock O g self s req).1 = .ok r2
      ∧ r2.Latest = r.Latest
      ∧ r2.Previous.map SkipBlock.Hash = r.Previous.map SkipBlock.Hash := by
  unfold storeSkipBlock at hOk ⊢
  by_cases h1 : req.NewBlock.Roster.head? ≠ some self
  · rw [if_pos h1] at hOk
    exact absurd hOk (by simp)
  · rw [if_neg h1] at hOk ⊢
    by_cases h2 : 0 < s.AuthSkipchain ∧ ¬ (authSigOk O self s req = true)
    · rw [if_pos h2] at hOk
      exact absurd hOk (by simp)
    · rw [if_neg h2] at hOk ⊢
      by_cases h3 : req.LatestID.isEmpty = true
      · rw [if_pos h3] at hOk ⊢
        exact ⟨r, hOk, rfl, rfl⟩
      · rw [if_neg h3] at hOk ⊢
        exact appendPath_fs_indep O f g self s req.LatestID req.NewBlock r hOk

/-- The immutable part of the genesis of the C2 witness chain (MaxH 2,
BaseH 2). -/
def g0FixC2 : SkipBlockFix :=
  { Index := 0, Height := 2, MaximumHeight := 2, BaseHeight := 2,
    BackLinkIDs := [[13]], VerifierIDs := [], ParentBlockID := [],
    GenesisID := [], Data := [], Roster := [0] }

/-- The immutable part of block 1 of the C2 witness chain. -/
def b1FixC2 : SkipBlockFix :=
  { Index := 1, Height := 1, MaximumHeight := 2, BaseHeight := 2,
    BackLinkIDs := [hashFixModel g0FixC2], VerifierIDs := [],
    ParentBlockID := [], GenesisID := hashFixModel g0FixC2, Data := [],
    Roster := [0] }

/-- The genesis block of the C2 witness chain, already extended once. -/
def g0BlockC2 : SkipBlock :=
  { Index := 0, Height := 2, MaximumHeight := 2, BaseHeight := 2,
    BackLinkIDs := [[13]], VerifierIDs := [], ParentBlockID := [],
    GenesisID := [], Data := [], Roster := [0],
    Hash := hashFixModel g0FixC2,
    ForwardLink := [⟨hashFixModel b1FixC2, [1]⟩], ChildSL := [] }

/-- Block 1 of the C2 witness chain, the current latest block. -/
def b1BlockC2 : SkipBlock :=
  { Index := 1, Height := 1, MaximumHeight := 2, BaseHeight := 2,
    BackLinkIDs := [hashFixModel g0FixC2], VerifierIDs := [],
    ParentBlockID := [], GenesisID := hashFixModel g0FixC2, Data := [],
    Roster := [0], Hash := hashFixModel b1FixC2, ForwardLink := [],
    ChildSL := [] }

/-- The C2 witness state: a two-block chain whose next block has height 2
and therefore back-fills a forward link on the genesis block. -/
def c2State : ServiceState :=
  { emptyState with Sbm := [g0BlockC2, b1BlockC2] }

/-- The C2 witness append request. -/
def c2Req : StoreReq :=
  { LatestID := hashFixModel b1FixC2,
    NewBlock := { blankBlock with Roster := [0] }, Signature := none }

/-- The reply of the C2 witness run in which every back-fill BFT round
succeeds. -/
def c2Reply : StoreReply :=
  match (storeSkipBlock oracleYes fsAll 0 c2State c2Req).1 with
  | .ok r => r
  | .error _ => { Previous := none, Latest := blankBlock }

/-- Witness for C2: the append whose back-fill succeeds and the append
whose back-fill BFT rounds all fail return the same successful reply. -/
theorem c2_witness :
    ∃ r2, (storeSkipBlock oracleYes fsNone 0 c2State c2Req).1 = .ok r2
      ∧ r2.Latest = c2Reply.Latest
      ∧ r2.Previous.map SkipBlock.Hash = c2Reply.Previous.map SkipBlock.Hash :=
  c2_backfill_failure_nonfatal oracleYes fsAll fsNone 0 c2State c2Req c2Reply
    (by decide)
